import Mathlib

/-!
# Verification of the cron-expression engine

Shallow embedding of the cron utility module (parser, validator, field
matcher, occurrence search, description renderer, random generator) and
proofs of the specification claims about it.

JavaScript-specific behaviors are modelled explicitly:
* `parseInt(s, 10)` reads an optional sign followed by the longest leading
  digit run and yields `NaN` when there is none; `NaN` is modelled as
  `Option.none` and every arithmetic comparison against `NaN` is `false`.
* `String.prototype.split` with a one-character separator is `splitOnChar`;
  `split(/\s+/)` on a trimmed string yields its whitespace-separated words.
* `x % y === 0` is false when `y` is `0` or `NaN`.
-/

namespace Cron

set_option maxRecDepth 100000

/-- JS whitespace test (`\s`). -/
def isWs (c : Char) : Bool := c.isWhitespace

/-- JS `String.prototype.trim` on the character list. -/
def trimChars (l : List Char) : List Char :=
  ((l.dropWhile isWs).reverse.dropWhile isWs).reverse

/-- JS `s.trim()`. -/
def jsTrim (s : String) : String := ⟨trimChars s.data⟩

/-- JS `s.toLowerCase()` (ASCII). -/
def jsToLower (s : String) : String := ⟨s.data.map Char.toLower⟩

/-- Split a character list at every character satisfying `p`
(JS `split` semantics: `n` separators produce `n+1` chunks, empty chunks kept). -/
def splitOnPred (p : Char → Bool) : List Char → List (List Char)
  | [] => [[]]
  | c :: cs =>
    let r := splitOnPred p cs
    if p c then [] :: r
    else
      match r with
      | [] => [[c]]
      | h :: t => (c :: h) :: t

/-- JS `s.split(sep)` for a one-character separator. -/
def jsSplit (sep : Char) (s : String) : List String :=
  (splitOnPred (fun c => c == sep) s.data).map (fun l => ⟨l⟩)

/-- JS `s.includes(c)` for a one-character needle. -/
def jsIncludes (s : String) (c : Char) : Bool := s.data.contains c

/-- The longest leading run of decimal digits. -/
def leadingDigits : List Char → List Char
  | [] => []
  | c :: cs => if c.isDigit then c :: leadingDigits cs else []

/-- Numeric value of a list of decimal digit characters. -/
def digitsVal (l : List Char) : Nat :=
  l.foldl (fun a c => a * 10 + (c.toNat - 48)) 0

/-- JS `parseInt(s, 10)`: skip whitespace, read an optional sign and then the
longest leading digit run; `none` models `NaN`. -/
def jsParseInt (s : String) : Option Int :=
  match (jsTrim s).data with
  | [] => none
  | c :: cs =>
    if c == '-' then
      match leadingDigits cs with
      | [] => none
      | ds => some (-(digitsVal ds : Int))
    else if c == '+' then
      match leadingDigits cs with
      | [] => none
      | ds => some ((digitsVal ds : Int))
    else
      match leadingDigits (c :: cs) with
      | [] => none
      | ds => some ((digitsVal ds : Int))

/-- JS `s.padStart(2, '0')`. -/
def pad2 (s : String) : String :=
  if s.length ≥ 2 then s else if s.length == 1 then "0" ++ s else "00"

/-- JS `Number(s)` restricted to the integral strings that occur here
(`""` is `0`, a signed digit run is its value, anything else is `NaN`/`none`). -/
def jsToNumber (s : String) : Option Int :=
  match (jsTrim s).data with
  | [] => some 0
  | '-' :: rest =>
    if !rest.isEmpty && rest.all Char.isDigit then some (-(digitsVal rest : Int)) else none
  | '+' :: rest =>
    if !rest.isEmpty && rest.all Char.isDigit then some ((digitsVal rest : Int)) else none
  | l => if l.all Char.isDigit then some ((digitsVal l : Int)) else none

/-- JS `s > 1` with string-to-number coercion (used for pluralization). -/
def jsStrGtOne (s : String) : Bool :=
  match jsToNumber s with
  | some v => 1 < v
  | none => false

/-- JS `x % y === 0` where `y` may be `NaN` (`none`); `x % 0` is `NaN`. -/
def jsRemEqZero (a : Int) (y : Option Int) : Bool :=
  match y with
  | none => false
  | some s => if s == 0 then false else a % s == 0

/-! ## Constant tables (`FIELD_RANGES`, `MONTH_NAMES`, `WEEKDAY_NAMES`, `PREDEFINED`) -/

/-- Table `FIELD_RANGES`: inclusive numeric domain of each cron field. -/
structure FieldRanges where
  minute : Nat × Nat
  hour : Nat × Nat
  day : Nat × Nat
  month : Nat × Nat
  weekday : Nat × Nat

def FIELD_RANGES : FieldRanges :=
  { minute := (0, 59), hour := (0, 23), day := (1, 31), month := (1, 12),
    weekday := (0, 7) }

def MONTH_NAMES : List String :=
  ["Jan", "Feb", "Mar", "Apr", "May", "Jun",
   "Jul", "Aug", "Sep", "Oct", "Nov", "Dec"]

def WEEKDAY_NAMES : List String :=
  ["Sun", "Mon", "Tue", "Wed", "Thu", "Fri", "Sat"]

/-- Table `PREDEFINED`: the alias map. -/
def PREDEFINED (s : String) : Option String :=
  if s == "@yearly" then some "0 0 1 1 *"
  else if s == "@annually" then some "0 0 1 1 *"
  else if s == "@monthly" then some "0 0 1 * *"
  else if s == "@weekly" then some "0 0 * * 0"
  else if s == "@daily" then some "0 0 * * *"
  else if s == "@hourly" then some "0 * * * *"
  else if s == "@minutely" then some "* * * * *"
  else none

/-! ## `parseCronExpression` -/

/-- The five raw field strings of a parsed cron expression. -/
structure CronFields where
  minute : String
  hour : String
  day : String
  month : String
  weekday : String
deriving DecidableEq, Repr

deriving instance DecidableEq for Except

/-- JS `expression.trim().split(/\s+/)`: the whitespace-separated tokens. -/
def fieldTokens (s : String) : List String :=
  ((splitOnPred isWs (trimChars s.data)).filter (fun l => !l.isEmpty)).map
    (fun l => ⟨l⟩)

/-- Function `parseCronExpression`: alias expansion, then whitespace split into
exactly five fields.  `.error` carries the JS error message. -/
def parseCronExpression (expression : String) : Except String CronFields :=
  let normalized := jsToLower (jsTrim expression)
  let expression :=
    match PREDEFINED normalized with
    | some e => e
    | none => expression
  match fieldTokens expression with
  | [m, h, d, mo, w] => .ok ⟨m, h, d, mo, w⟩
  | _ => .error "Cron expression must have exactly 5 fields"

/-! ## `validateField` / `validateCronExpression` -/

/-- Validation of one comma-separated term of a field
(body of the `for` loop of `validateField`); `none` means valid. -/
def validatePart (part fieldName : String) (lo hi : Nat) : Option String :=
  if jsIncludes part '/' then
    let rangePart := (jsSplit '/' part).getD 0 ""
    let stepPart := (jsSplit '/' part).getD 1 ""
    match jsParseInt stepPart with
    | none => some ("Invalid step value in " ++ fieldName)
    | some step =>
      if step ≤ 0 then some ("Invalid step value in " ++ fieldName)
      else if rangePart == "*" then none
      else if jsIncludes rangePart '-' then
        match jsParseInt ((jsSplit '-' rangePart).getD 0 ""),
              jsParseInt ((jsSplit '-' rangePart).getD 1 "") with
        | some s, some e =>
          if s < (lo : Int) || e > (hi : Int) || s > e then
            some ("Invalid range in " ++ fieldName)
          else none
        | _, _ => some ("Invalid range in " ++ fieldName)
      else
        match jsParseInt rangePart with
        | some n =>
          if n < (lo : Int) || n > (hi : Int) then
            some ("Invalid value in " ++ fieldName)
          else none
        | none => some ("Invalid value in " ++ fieldName)
  else if jsIncludes part '-' then
    match jsParseInt ((jsSplit '-' part).getD 0 ""),
          jsParseInt ((jsSplit '-' part).getD 1 "") with
    | some s, some e =>
      if s < (lo : Int) || e > (hi : Int) || s > e then
        some ("Invalid range in " ++ fieldName)
      else none
    | _, _ => some ("Invalid range in " ++ fieldName)
  else
    match jsParseInt part with
    | some n =>
      if n < (lo : Int) || n > (hi : Int) then
        some ("Invalid value in " ++ fieldName ++ ": " ++ part)
      else none
    | none => some ("Invalid value in " ++ fieldName ++ ": " ++ part)

/-- The `for` loop of `validateField`: first error wins. -/
def validateParts (parts : List String) (fieldName : String) (lo hi : Nat) :
    Option String :=
  match parts with
  | [] => none
  | p :: ps =>
    match validatePart p fieldName lo hi with
    | some e => some e
    | none => validateParts ps fieldName lo hi

/-- Function `validateField`: `*` is valid, otherwise every comma term must validate. -/
def validateField (field fieldName : String) (lo hi : Nat) : Option String :=
  if field == "*" then none
  else validateParts (jsSplit ',' field) fieldName lo hi

/-- Function `validateCronExpression`: parse, then validate the five fields in the
fixed order minute, hour, day, month, weekday, returning the first error
(`none` means `{valid: true}`). -/
def validateCronExpression (expression : String) : Option String :=
  match parseCronExpression expression with
  | .error e => some e
  | .ok p =>
    match validateField p.minute "minute" FIELD_RANGES.minute.1 FIELD_RANGES.minute.2 with
    | some e => some e
    | none =>
    match validateField p.hour "hour" FIELD_RANGES.hour.1 FIELD_RANGES.hour.2 with
    | some e => some e
    | none =>
    match validateField p.day "day" FIELD_RANGES.day.1 FIELD_RANGES.day.2 with
    | some e => some e
    | none =>
    match validateField p.month "month" FIELD_RANGES.month.1 FIELD_RANGES.month.2 with
    | some e => some e
    | none =>
    match validateField p.weekday "weekday" FIELD_RANGES.weekday.1 FIELD_RANGES.weekday.2 with
    | some e => some e
    | none => none

/-! ## `matchesField` -/

/-- Matching of one comma-separated term of a field
(body of the `for` loop of `matchesField`). -/
def matchesPart (value : Nat) (part : String) : Bool :=
  if jsIncludes part '/' then
    let rangePart := (jsSplit '/' part).getD 0 ""
    let stepPart := (jsSplit '/' part).getD 1 ""
    let step := jsParseInt stepPart
    if rangePart == "*" then jsRemEqZero (value : Int) step
    else if jsIncludes rangePart '-' then
      match jsParseInt ((jsSplit '-' rangePart).getD 0 ""),
            jsParseInt ((jsSplit '-' rangePart).getD 1 "") with
      | some s, some e =>
        decide ((value : Int) ≥ s) && decide ((value : Int) ≤ e) &&
          jsRemEqZero ((value : Int) - s) step
      | _, _ => false
    else
      match jsParseInt rangePart with
      | some s =>
        decide ((value : Int) ≥ s) && jsRemEqZero ((value : Int) - s) step
      | none => false
  else if jsIncludes part '-' then
    match jsParseInt ((jsSplit '-' part).getD 0 ""),
          jsParseInt ((jsSplit '-' part).getD 1 "") with
    | some s, some e => decide ((value : Int) ≥ s) && decide ((value : Int) ≤ e)
    | _, _ => false
  else
    match jsParseInt part with
    | some n => n == (value : Int)
    | none => false

/-- Function `matchesField(value, field, range)`: `*` matches everything, otherwise a
value matches if any comma term matches (the `range` argument is unused in
the source too). -/
def matchesField (value : Nat) (field : String) (_rng : Nat × Nat) : Bool :=
  if field == "*" then true
  else (jsSplit ',' field).any (matchesPart value)

/-! ## Calendar model

A JS `Date` is modelled by `DateTime` (minute resolution, always a
normalized calendar date) plus, for reference instants, the sub-minute
remainder `subMs` (seconds and milliseconds past the minute, `< 60000`).
The in-place `Date` setter cascades (`setMinutes(60)` rolling the hour,
`setDate(32)` rolling the month, ...) become the explicit `next*`
functions below. -/

structure DateTime where
  year : Nat
  month : Nat
  day : Nat
  hour : Nat
  minute : Nat
deriving DecidableEq, Repr

/-- A full-resolution instant: a minute-resolution `DateTime` plus the
milliseconds past the minute. -/
structure Instant where
  dt : DateTime
  subMs : Nat
deriving DecidableEq, Repr

/-- Lexicographic (= chronological, on normalized dates) strict order. -/
def dtLtB (a b : DateTime) : Bool :=
  a.year < b.year || (a.year == b.year &&
    (a.month < b.month || (a.month == b.month &&
      (a.day < b.day || (a.day == b.day &&
        (a.hour < b.hour || (a.hour == b.hour && a.minute < b.minute)))))))

/-- Strict order on instants (JS `Date` comparison). -/
def instLtB (a b : Instant) : Bool :=
  dtLtB a.dt b.dt || (a.dt == b.dt && a.subMs < b.subMs)

def isLeap (y : Nat) : Bool :=
  (y % 4 == 0 && y % 100 != 0) || y % 400 == 0

def daysInMonth (y m : Nat) : Nat :=
  if m == 2 then (if isLeap y then 29 else 28)
  else if m == 4 || m == 6 || m == 9 || m == 11 then 30
  else 31

/-- JS `getDay()`: 0 = Sunday, ..., 6 = Saturday (proleptic Gregorian). -/
def dayOfWeek (y m d : Nat) : Nat :=
  let y' := if m ≤ 2 then y - 1 else y
  let era := y' / 400
  let yoe := y' % 400
  let mp := if 2 < m then m - 3 else m + 9
  let doy := (153 * mp + 2) / 5 + d - 1
  let doe := yoe * 365 + yoe / 4 - yoe / 100 + doy
  (era * 146097 + doe + 3) % 7

/-- JS `setMinutes(0); setHours(0); setDate(1); setMonth(month)` — first minute
of the next month. -/
def nextMonthStart (d : DateTime) : DateTime :=
  if d.month + 1 ≤ 12 then ⟨d.year, d.month + 1, 1, 0, 0⟩
  else ⟨d.year + 1, 1, 1, 0, 0⟩

/-- JS `setMinutes(0); setHours(0); setDate(dayOfMonth + 1)` — first minute of
the next day. -/
def nextDayStart (d : DateTime) : DateTime :=
  if d.day + 1 ≤ daysInMonth d.year d.month then
    ⟨d.year, d.month, d.day + 1, 0, 0⟩
  else nextMonthStart d

/-- JS `setMinutes(0); setHours(getHours() + 1)` — first minute of the next
hour. -/
def nextHourStart (d : DateTime) : DateTime :=
  if d.hour + 1 ≤ 23 then ⟨d.year, d.month, d.day, d.hour + 1, 0⟩
  else nextDayStart d

/-- JS `setMinutes(getMinutes() + 1)` — the next minute. -/
def dtNextMinute (d : DateTime) : DateTime :=
  if d.minute + 1 ≤ 59 then ⟨d.year, d.month, d.day, d.hour, d.minute + 1⟩
  else nextHourStart d

/-! ## `getNextExecutionTime` -/

/-- Function `checkWeekdayMatch(wd, field)`: weekday matching with the Sunday 0/7
aliasing, including the extra scan of comma terms when `wd` is Sunday and
the field mentions the character `0` without a step. -/
def checkWeekdayMatch (wd : Nat) (field : String) : Bool :=
  if matchesField wd field FIELD_RANGES.weekday then true
  else if wd == 0 && matchesField 7 field FIELD_RANGES.weekday then true
  else if wd == 0 && jsIncludes field '0' && !jsIncludes field '/' then
    (jsSplit ',' field).any (fun part =>
      if part == "0" || part == "7" then true
      else if jsIncludes part '-' then
        let s := jsParseInt ((jsSplit '-' part).getD 0 "")
        let e := jsParseInt ((jsSplit '-' part).getD 1 "")
        (s == some 0 || s == some 7) || (e == some 0 || e == some 7) ||
          (match s, e with
           | some s', some e' => s' ≤ 0 && 0 ≤ e'
           | _, _ => false)
      else false)
  else false

/-- The day-of-month/weekday OR rule of the occurrence search:
both wildcard → every day; one wildcard → the other constrains;
neither → logical OR. -/
def dayMatches (p : CronFields) (dom wd : Nat) : Bool :=
  if p.day == "*" && p.weekday == "*" then true
  else if p.day == "*" then checkWeekdayMatch wd p.weekday
  else if p.weekday == "*" then matchesField dom p.day FIELD_RANGES.day
  else matchesField dom p.day FIELD_RANGES.day || checkWeekdayMatch wd p.weekday

/-- The bounded `while` loop of `getNextExecutionTime`; the fuel is the
`maxIterations` counter of the source. -/
def searchLoop (p : CronFields) (f : Instant) (startYear : Nat) :
    Nat → DateTime → Option DateTime
  | 0, _ => none
  | fuel + 1, cur =>
    if startYear + 2 < cur.year then none
    else if !matchesField cur.month p.month FIELD_RANGES.month then
      searchLoop p f startYear fuel (nextMonthStart cur)
    else if !dayMatches p cur.day (dayOfWeek cur.year cur.month cur.day) then
      searchLoop p f startYear fuel (nextDayStart cur)
    else if !matchesField cur.hour p.hour FIELD_RANGES.hour then
      searchLoop p f startYear fuel (nextHourStart cur)
    else if !matchesField cur.minute p.minute FIELD_RANGES.minute then
      searchLoop p f startYear fuel (dtNextMinute cur)
    else if instLtB f ⟨cur, 0⟩ then some cur
    else searchLoop p f startYear fuel (dtNextMinute cur)

/-- Function `getNextExecutionTime(expression, fromDate)`: validates, truncates the
reference to the minute, advances one minute, and searches with the
2 000 000-iteration cap and the two-calendar-year horizon. -/
def getNextExecutionTime (expression : String) (fromDate : Instant) :
    Option DateTime :=
  match validateCronExpression expression with
  | some _ => none
  | none =>
    match parseCronExpression expression with
    | .error _ => none
    | .ok parsed =>
      let current := dtNextMinute fromDate.dt
      let startYear := current.year
      searchLoop parsed fromDate startYear 2000000 current

/-! ## `getHumanReadableDescription` -/

/-- The fixed sentences for the predefined aliases. -/
def predefinedNames (s : String) : Option String :=
  if s == "@yearly" then some "Once a year (January 1st at 00:00)"
  else if s == "@annually" then some "Once a year (January 1st at 00:00)"
  else if s == "@monthly" then some "Once a month (1st day at 00:00)"
  else if s == "@weekly" then some "Once a week (Sunday at 00:00)"
  else if s == "@daily" then some "Once a day (at 00:00)"
  else if s == "@hourly" then some "Once an hour (at minute 0)"
  else if s == "@minutely" then some "Every minute"
  else none

/-- JS `MONTH_NAMES[parseInt(m) - 1]`, with out-of-bounds indexing rendered
as the string `"undefined"`. -/
def monthName (s : String) : String :=
  match jsParseInt s with
  | some v =>
    if v < 1 then "undefined" else MONTH_NAMES.getD (v.toNat - 1) "undefined"
  | none => "undefined"

/-- JS `WEEKDAY_NAMES[parseInt(w) % 7]`, likewise. -/
def weekdayName (s : String) : String :=
  match jsParseInt s with
  | some v =>
    if v < 0 then "undefined" else WEEKDAY_NAMES.getD ((v % 7).toNat) "undefined"
  | none => "undefined"

/-- Day, month and weekday clauses, the final hour+minute special case and
the `", "` join — the part of `getHumanReadableDescription` after the hour
clause. -/
def describeTail (parsed : CronFields) (parts0 : List String) : String :=
  let parts1 :=
    if parsed.day == "*" then parts0
    else if jsIncludes parsed.day '/' then
      let step := (jsSplit '/' parsed.day).getD 1 ""
      parts0 ++ ["every " ++ step ++ " day" ++ (if jsStrGtOne step then "s" else "")]
    else if jsIncludes parsed.day '-' then
      parts0 ++ ["from day " ++ ((jsSplit '-' parsed.day).getD 0 "") ++ " to " ++
        ((jsSplit '-' parsed.day).getD 1 "")]
    else if jsIncludes parsed.day ',' then
      parts0 ++ ["on day" ++ (if (jsSplit ',' parsed.day).length > 1 then "s" else "") ++
        " " ++ String.intercalate ", " (jsSplit ',' parsed.day)]
    else parts0 ++ ["on day " ++ parsed.day]
  let parts2 :=
    if parsed.month == "*" then parts1
    else if jsIncludes parsed.month '/' then
      let step := (jsSplit '/' parsed.month).getD 1 ""
      parts1 ++ ["every " ++ step ++ " month" ++ (if jsStrGtOne step then "s" else "")]
    else if jsIncludes parsed.month '-' then
      parts1 ++ ["from " ++ monthName ((jsSplit '-' parsed.month).getD 0 "") ++
        " to " ++ monthName ((jsSplit '-' parsed.month).getD 1 "")]
    else if jsIncludes parsed.month ',' then
      parts1 ++ ["in " ++ String.intercalate ", " ((jsSplit ',' parsed.month).map monthName)]
    else parts1 ++ ["in " ++ monthName parsed.month]
  let parts3 :=
    if parsed.weekday == "*" then parts2
    else if jsIncludes parsed.weekday '/' then
      let step := (jsSplit '/' parsed.weekday).getD 1 ""
      parts2 ++ ["every " ++ step ++ " weekday" ++ (if jsStrGtOne step then "s" else "")]
    else if jsIncludes parsed.weekday '-' then
      parts2 ++ ["from " ++ weekdayName ((jsSplit '-' parsed.weekday).getD 0 "") ++
        " to " ++ weekdayName ((jsSplit '-' parsed.weekday).getD 1 "")]
    else if jsIncludes parsed.weekday ',' then
      parts2 ++ ["on " ++ String.intercalate ", " ((jsSplit ',' parsed.weekday).map weekdayName)]
    else parts2 ++ ["on " ++ weekdayName parsed.weekday]
  if parsed.hour != "*" && !jsIncludes parsed.hour ',' && !jsIncludes parsed.hour '-' &&
      !jsIncludes parsed.hour '/' && parsed.minute != "*" && !jsIncludes parsed.minute ',' &&
      !jsIncludes parsed.minute '-' && !jsIncludes parsed.minute '/' then
    let hour := pad2 parsed.hour
    let minute := pad2 parsed.minute
    let timePart := "At " ++ hour ++ ":" ++ minute
    let rest := String.intercalate ", " (parts3.drop 2)
    if rest != "" then timePart ++ ", " ++ rest else timePart
  else String.intercalate ", " parts3

/-- Function `getHumanReadableDescription`: validation guard, alias sentences, the
minute and hour clauses with the single hour+minute early return
`At HH:MM`, then `describeTail`. -/
def getHumanReadableDescription (expression : String) : String :=
  match validateCronExpression expression with
  | some _ => "Invalid cron expression"
  | none =>
  match parseCronExpression expression with
  | .error _ => "Invalid cron expression"
  | .ok parsed =>
  let normalized := jsToLower (jsTrim expression)
  match PREDEFINED normalized with
  | some _ =>
    (match predefinedNames normalized with
     | some s => s
     | none => expression)
  | none =>
  let minuteClause :=
    if parsed.minute == "*" then "every minute"
    else if jsIncludes parsed.minute '/' then
      let step := (jsSplit '/' parsed.minute).getD 1 ""
      "every " ++ step ++ " minute" ++ (if jsStrGtOne step then "s" else "")
    else if jsIncludes parsed.minute '-' then
      "from minute " ++ ((jsSplit '-' parsed.minute).getD 0 "") ++ " to " ++
        ((jsSplit '-' parsed.minute).getD 1 "")
    else if jsIncludes parsed.minute ',' then
      "at minute" ++ (if (jsSplit ',' parsed.minute).length > 1 then "s" else "") ++
        " " ++ String.intercalate ", " ((jsSplit ',' parsed.minute).map pad2)
    else "at minute " ++ pad2 parsed.minute
  let parts := [minuteClause]
  if parsed.hour == "*" then
    describeTail parsed (if parsed.minute == "*" then parts.set 0 "every minute" else parts)
  else if jsIncludes parsed.hour '/' then
    let step := (jsSplit '/' parsed.hour).getD 1 ""
    describeTail parsed
      (parts ++ ["every " ++ step ++ " hour" ++ (if jsStrGtOne step then "s" else "")])
  else if jsIncludes parsed.hour '-' then
    describeTail parsed
      (parts ++ ["from " ++ pad2 ((jsSplit '-' parsed.hour).getD 0 "") ++ ":00 to " ++
        pad2 ((jsSplit '-' parsed.hour).getD 1 "") ++ ":59"])
  else if jsIncludes parsed.hour ',' then
    describeTail parsed
      (parts ++ ["at hour" ++ (if (jsSplit ',' parsed.hour).length > 1 then "s" else "") ++
        " " ++ String.intercalate ", " ((jsSplit ',' parsed.hour).map pad2)])
  else
    let hour := pad2 parsed.hour
    let minute := if parsed.minute == "*" then "00" else pad2 parsed.minute
    if !jsIncludes parsed.minute ',' && !jsIncludes parsed.minute '-' &&
        !jsIncludes parsed.minute '/' then
      "At " ++ hour ++ ":" ++ minute
    else
      describeTail parsed (parts ++ ["at hour " ++ hour])

/-! ## `generateRandomCron`

The `Math.random()` draws are modelled by explicit parameters: `pick`
selects the pattern (`Math.floor(Math.random() * patterns.length)`), and
`a`, `b` are the pattern's own draws, already mapped to the ranges the
source produces (`Math.floor(Math.random() * n)` is an arbitrary natural
`< n`; pattern 5 draws the day as `a + 1` with `a < 28`; pattern 6 draws
`endHour` as `startHour + b` with `b < 24 - startHour`). -/

def generateRandomCron (pick a b : Nat) : String :=
  match pick with
  | 0 => toString a ++ " " ++ toString b ++ " * * *"
  | 1 => "*/" ++ toString ([5, 10, 15, 30].getD a 5) ++ " * * * *"
  | 2 => "0 */" ++ toString ([1, 2, 3, 6, 12].getD a 1) ++ " * * *"
  | 3 => toString a ++ " " ++ toString b ++ " * * *"
  | 4 => "0 " ++ toString b ++ " * * " ++ toString a
  | 5 => "0 " ++ toString b ++ " " ++ toString (a + 1) ++ " * *"
  | 6 => "0 " ++ toString a ++ "-" ++ toString (a + b) ++ " * * *"
  | _ => ""

/-! ## Helper lemmas -/

/-- The search loop only ever returns a cursor that passed the
`current > fromDate` guard. -/
theorem searchLoop_after (p : CronFields) (f : Instant) (sy : Nat) :
    ∀ fuel cur r, searchLoop p f sy fuel cur = some r → instLtB f ⟨r, 0⟩ = true := by
  intro fuel
  induction fuel with
  | zero => intro cur r h; simp [searchLoop] at h
  | succ n ih =>
    intro cur r h
    simp only [searchLoop] at h
    split at h
    · exact absurd h (by simp)
    · split at h
      · exact ih _ _ h
      · split at h
        · exact ih _ _ h
        · split at h
          · exact ih _ _ h
          · split at h
            · exact ih _ _ h
            · split at h
              · obtain rfl : cur = r := Option.some_inj.mp h
                assumption
              · exact ih _ _ h

/-! ## Claim C1 -/

/-- C1: whenever `getNextExecutionTime e t` returns an instant `r`, that
instant is strictly greater than the reference instant `t` (the cursor is
initialized to `t` truncated to the minute plus one minute, and a candidate
is returned only when the `current > fromDate` guard holds). -/
theorem c1_next_strictly_after (e : String) (t : Instant) (r : DateTime)
    (h : getNextExecutionTime e t = some r) : instLtB t ⟨r, 0⟩ = true := by
  unfold getNextExecutionTime at h
  split at h
  · exact absurd h (by simp)
  · split at h
    · exact absurd h (by simp)
    · exact searchLoop_after _ _ _ _ _ _ h

/-- Witness for C1 at the spec's own scenario: `"0 14 * * *"` from
2024-01-15T10:00 fires at 2024-01-15T14:00, strictly after the reference. -/
theorem c1_witness :
    getNextExecutionTime "0 14 * * *" ⟨⟨2024, 1, 15, 10, 0⟩, 0⟩ =
      some ⟨2024, 1, 15, 14, 0⟩ ∧
    instLtB ⟨⟨2024, 1, 15, 10, 0⟩, 0⟩ ⟨⟨2024, 1, 15, 14, 0⟩, 0⟩ = true :=
  ⟨by decide, c1_next_strictly_after "0 14 * * *" ⟨⟨2024, 1, 15, 10, 0⟩, 0⟩
    ⟨2024, 1, 15, 14, 0⟩ (by decide)⟩

/-! ## Claim C2 -/

/-- C2: the day-of-month/weekday rule of the occurrence search: both fields
wildcard → every day matches; exactly one wildcard → only the other field
constrains; neither wildcard → the day matches iff it satisfies the
day-of-month constraint OR the weekday constraint. -/
theorem c2_day_weekday_or (p : CronFields) (dom wd : Nat) :
    (p.day = "*" → p.weekday = "*" → dayMatches p dom wd = true) ∧
    (p.day = "*" → p.weekday ≠ "*" →
      dayMatches p dom wd = checkWeekdayMatch wd p.weekday) ∧
    (p.day ≠ "*" → p.weekday = "*" →
      dayMatches p dom wd = matchesField dom p.day FIELD_RANGES.day) ∧
    (p.day ≠ "*" → p.weekday ≠ "*" →
      (dayMatches p dom wd = true ↔
        matchesField dom p.day FIELD_RANGES.day = true ∨
        checkWeekdayMatch wd p.weekday = true)) := by
  refine ⟨?_, ?_, ?_, ?_⟩ <;> intro h1 h2 <;>
    simp [dayMatches, beq_iff_eq, h1, h2, Bool.or_eq_true]

/-- Witness for C2, exercising all four cases at concrete fields; the last
case is the spec's `"0 0 1 * 0"` day-1-or-Sunday example on a Sunday. -/
theorem c2_witness :
    dayMatches ⟨"0", "0", "*", "*", "*"⟩ 15 1 = true ∧
    dayMatches ⟨"0", "0", "*", "*", "0"⟩ 15 0 = checkWeekdayMatch 0 "0" ∧
    dayMatches ⟨"0", "0", "1", "*", "*"⟩ 15 1 = matchesField 15 "1" FIELD_RANGES.day ∧
    (dayMatches ⟨"0", "0", "1", "*", "0"⟩ 21 0 = true ↔
      matchesField 21 "1" FIELD_RANGES.day = true ∨
      checkWeekdayMatch 0 "0" = true) :=
  ⟨(c2_day_weekday_or ⟨"0", "0", "*", "*", "*"⟩ 15 1).1 rfl rfl,
   (c2_day_weekday_or ⟨"0", "0", "*", "*", "0"⟩ 15 0).2.1 rfl (by decide),
   (c2_day_weekday_or ⟨"0", "0", "1", "*", "*"⟩ 15 1).2.2.1 (by decide) rfl,
   (c2_day_weekday_or ⟨"0", "0", "1", "*", "0"⟩ 21 0).2.2.2 (by decide) (by decide)⟩

/-! ## Claim C4 -/

/-- C4: `validateCronExpression` checks the fields in the fixed order
minute, hour, dayOfMonth, month, weekday and returns the first field error
it encounters; later fields are not reported. -/
theorem c4_first_error_in_order (e : String) (p : CronFields)
    (h : parseCronExpression e = .ok p) :
    validateCronExpression e =
      ((validateField p.minute "minute" 0 59).orElse fun _ =>
        (validateField p.hour "hour" 0 23).orElse fun _ =>
          (validateField p.day "day" 1 31).orElse fun _ =>
            (validateField p.month "month" 1 12).orElse fun _ =>
              validateField p.weekday "weekday" 0 7) := by
  unfold validateCronExpression
  rw [h]
  rcases hm : validateField p.minute "minute" 0 59 with _ | em <;>
    rcases hh : validateField p.hour "hour" 0 23 with _ | eh <;>
    rcases hd : validateField p.day "day" 1 31 with _ | ed <;>
    rcases hmo : validateField p.month "month" 1 12 with _ | emo <;>
    rcases hw : validateField p.weekday "weekday" 0 7 with _ | ew <;>
    simp only [FIELD_RANGES, hm, hh, hd, hmo, hw, Option.orElse]

/-- Witness for C4: in `"60 24 32 13 8"` every field is invalid; the
reported error blames the minute field. -/
theorem c4_witness : validateCronExpression "60 24 32 13 8" =
    some "Invalid value in minute: 60" := by
  have h := c4_first_error_in_order "60 24 32 13 8" ⟨"60", "24", "32", "13", "8"⟩
    (by decide)
  rw [h]; decide

/-! ## Claim C5 -/

/-- JS `x % s === 0` for an actual positive step. -/
theorem jsRemEqZero_some (a s : Int) (hs : 0 < s) :
    jsRemEqZero a (some s) = true ↔ a % s = 0 := by
  simp [jsRemEqZero, beq_iff_eq, hs.ne']

/-- C5: the field matcher, term by term: a wildcard-base step term matches
`v` iff `v % step == 0`; a range-base step term iff `start ≤ v ≤ end` and
`(v - start) % step == 0`; a single-base step term iff `v ≥ base` and
`(v - base) % step == 0`; a plain range iff `start ≤ v ≤ end`; a single
term iff `v` equals it; and a non-wildcard field matches iff some
comma-separated term matches (OR across terms). -/
theorem c5_matcher_shapes (v : Nat) :
    (∀ part step, jsIncludes part '/' = true →
      (jsSplit '/' part).getD 0 "" = "*" →
      jsParseInt ((jsSplit '/' part).getD 1 "") = some step → 0 < step →
      (matchesPart v part = true ↔ (v : Int) % step = 0)) ∧
    (∀ part start stop step, jsIncludes part '/' = true →
      jsIncludes ((jsSplit '/' part).getD 0 "") '-' = true →
      (jsSplit '/' part).getD 0 "" ≠ "*" →
      jsParseInt ((jsSplit '-' ((jsSplit '/' part).getD 0 "")).getD 0 "") = some start →
      jsParseInt ((jsSplit '-' ((jsSplit '/' part).getD 0 "")).getD 1 "") = some stop →
      jsParseInt ((jsSplit '/' part).getD 1 "") = some step → 0 < step →
      (matchesPart v part = true ↔
        start ≤ (v : Int) ∧ (v : Int) ≤ stop ∧ ((v : Int) - start) % step = 0)) ∧
    (∀ part base step, jsIncludes part '/' = true →
      jsIncludes ((jsSplit '/' part).getD 0 "") '-' = false →
      (jsSplit '/' part).getD 0 "" ≠ "*" →
      jsParseInt ((jsSplit '/' part).getD 0 "") = some base →
      jsParseInt ((jsSplit '/' part).getD 1 "") = some step → 0 < step →
      (matchesPart v part = true ↔
        base ≤ (v : Int) ∧ ((v : Int) - base) % step = 0)) ∧
    (∀ part start stop, jsIncludes part '/' = false → jsIncludes part '-' = true →
      jsParseInt ((jsSplit '-' part).getD 0 "") = some start →
      jsParseInt ((jsSplit '-' part).getD 1 "") = some stop →
      (matchesPart v part = true ↔ start ≤ (v : Int) ∧ (v : Int) ≤ stop)) ∧
    (∀ part n, jsIncludes part '/' = false → jsIncludes part '-' = false →
      jsParseInt part = some n →
      (matchesPart v part = true ↔ n = (v : Int))) ∧
    (∀ field rng, field ≠ "*" →
      (matchesField v field rng = true ↔
        ∃ q ∈ jsSplit ',' field, matchesPart v q = true)) := by
  refine ⟨?_, ?_, ?_, ?_, ?_, ?_⟩
  · intro part step h1 h2 h3 hpos
    simp only [matchesPart, h1, h2, h3, if_true, beq_self_eq_true, if_pos]
    exact jsRemEqZero_some _ _ hpos
  · intro part start stop step h1 h2 h3 h4 h5 h6 hpos
    simp only [matchesPart, h1, h2, h3, h4, h5, h6, if_true, if_false, beq_iff_eq,
      if_neg h3, ge_iff_le, Bool.and_eq_true, decide_eq_true_eq,
      jsRemEqZero_some _ _ hpos, and_assoc]
  · intro part base step h1 h2 h3 h4 h5 hpos
    simp only [matchesPart, h1, h2, h3, h4, h5, if_true, beq_iff_eq,
      if_neg h3, Bool.false_eq_true, if_false, ge_iff_le, Bool.and_eq_true,
      decide_eq_true_eq, jsRemEqZero_some _ _ hpos]
  · intro part start stop h1 h2 h3 h4
    simp only [matchesPart, h1, h2, h3, h4, Bool.false_eq_true, if_false,
      if_true, ge_iff_le, Bool.and_eq_true, decide_eq_true_eq]
  · intro part n h1 h2 h3
    simp only [matchesPart, h1, h2, h3, Bool.false_eq_true, if_false,
      beq_iff_eq]
  · intro field rng hf
    simp only [matchesField, beq_iff_eq, if_neg hf, List.any_eq_true]

/-- Witness for C5, exercising every shape at concrete terms. -/
theorem c5_witness :
    (matchesPart 30 "*/15" = true ↔ (30 : Int) % 15 = 0) ∧
    (matchesPart 25 "0-30/5" = true ↔
      (0 : Int) ≤ 25 ∧ (25 : Int) ≤ 30 ∧ ((25 : Int) - 0) % 5 = 0) ∧
    (matchesPart 20 "10/5" = true ↔
      (10 : Int) ≤ 20 ∧ ((20 : Int) - 10) % 5 = 0) ∧
    (matchesPart 10 "9-17" = true ↔ (9 : Int) ≤ 10 ∧ (10 : Int) ≤ 17) ∧
    (matchesPart 15 "15" = true ↔ (15 : Int) = 15) ∧
    (matchesField 15 "0,15,30" (0, 59) = true ↔
      ∃ q ∈ jsSplit ',' "0,15,30", matchesPart 15 q = true) :=
  ⟨(c5_matcher_shapes 30).1 "*/15" 15 (by decide) (by decide) (by decide) (by decide),
   (c5_matcher_shapes 25).2.1 "0-30/5" 0 30 5 (by decide) (by decide) (by decide)
     (by decide) (by decide) (by decide) (by decide),
   (c5_matcher_shapes 20).2.2.1 "10/5" 10 5 (by decide) (by decide) (by decide)
     (by decide) (by decide) (by decide),
   (c5_matcher_shapes 10).2.2.2.1 "9-17" 9 17 (by decide) (by decide) (by decide)
     (by decide),
   (c5_matcher_shapes 15).2.2.2.2.1 "15" 15 (by decide) (by decide) (by decide),
   (c5_matcher_shapes 15).2.2.2.2.2 "0,15,30" (0, 59) (by decide)⟩

/-! ## Claim C8 -/

/-- C8: the search is a bounded loop (embedded with the source's
2 000 000-iteration cap as structural fuel, plus the two-calendar-year
horizon check) and returns `null` both when validation fails upstream and
when no matching instant exists within the horizon; in particular the
validated-but-impossible schedule `"0 0 30 2 *"` (February 30) yields
`null`. -/
theorem c8_termination_null :
    (∀ e t, validateCronExpression e ≠ none → getNextExecutionTime e t = none) ∧
    validateCronExpression "0 0 30 2 *" = none ∧
    getNextExecutionTime "0 0 30 2 *" ⟨⟨2024, 1, 1, 0, 0⟩, 0⟩ = none := by
  refine ⟨?_, by decide, by decide⟩
  intro e t hv
  unfold getNextExecutionTime
  rcases h : validateCronExpression e with _ | err
  · exact absurd h hv
  · rfl

/-- Witness for C8's validation-failure half: `minute = 60` never
validates, so the search immediately returns `null`. -/
theorem c8_witness :
    getNextExecutionTime "60 * * * *" ⟨⟨2024, 1, 15, 10, 0⟩, 0⟩ = none :=
  c8_termination_null.1 "60 * * * *" ⟨⟨2024, 1, 15, 10, 0⟩, 0⟩ (by decide)

/-! ## Claim C9 -/

/-- If the term loop of `validateField` reports no error, every term is
individually valid. -/
theorem validateParts_none_mem {l : List String} {fieldName : String}
    {lo hi : Nat} (h : validateParts l fieldName lo hi = none) :
    ∀ q ∈ l, validatePart q fieldName lo hi = none := by
  induction l with
  | nil => intro q hq; cases hq
  | cons p ps ih =>
    intro q hq
    unfold validateParts at h
    rcases hp : validatePart p fieldName lo hi with _ | err
    · rcases List.mem_cons.mp hq with hq1 | hq1
      · exact hq1 ▸ hp
      · rw [hp] at h; exact ih h q hq1
    · rw [hp] at h; cases h

/-- C9: for every field term containing `/`, validation succeeds only if
the step part parses to a positive integer; and the zero step
`"*/0 * * * *"` is rejected with a step error. -/
theorem c9_step_positive :
    (∀ field fieldName lo hi part, part ∈ jsSplit ',' field →
      jsIncludes part '/' = true → validateField field fieldName lo hi = none →
      ∃ step, jsParseInt ((jsSplit '/' part).getD 1 "") = some step ∧ 0 < step) ∧
    validateCronExpression "*/0 * * * *" = some "Invalid step value in minute" := by
  refine ⟨?_, by decide⟩
  intro field fieldName lo hi part hmem hslash hv
  unfold validateField at hv
  by_cases hw : field = "*"
  · subst hw
    have : part = "*" := by
      have : jsSplit ',' "*" = ["*"] := by decide
      rw [this] at hmem
      simpa using hmem
    rw [this] at hslash
    exact absurd hslash (by decide)
  · rw [if_neg (by simpa [beq_iff_eq] using hw)] at hv
    have hpart := validateParts_none_mem hv part hmem
    rcases hstep : jsParseInt ((jsSplit '/' part).getD 1 "") with _ | step
    · unfold validatePart at hpart
      rw [hslash] at hpart
      simp only [if_true, hstep] at hpart
      exact absurd hpart (by simp)
    · refine ⟨step, rfl, ?_⟩
      by_contra hle
      push_neg at hle
      unfold validatePart at hpart
      rw [hslash] at hpart
      simp only [if_true, hstep, if_pos hle] at hpart
      exact absurd hpart (by simp)

/-- Witness for C9: the sole term of the validated field `"*/5"` has the
positive step 5. -/
theorem c9_witness :
    ∃ step, jsParseInt ((jsSplit '/' "*/5").getD 1 "") = some step ∧ 0 < step :=
  c9_step_positive.1 "*/5" "minute" 0 59 "*/5" (by decide) (by decide) (by decide)

/-! ## Claim C10 -/

/-- A digit character is not a sign, a wildcard, or a separator. -/
theorem isDigit_ne_special {c : Char} (h : c.isDigit = true) :
    c ≠ '+' ∧ c ≠ '-' ∧ c ≠ '*' := by
  refine ⟨fun hc => ?_, fun hc => ?_, fun hc => ?_⟩ <;>
    (subst hc; exact absurd h (by decide))

theorem dropWhile_all_false {p : Char → Bool} {l : List Char}
    (h : ∀ x ∈ l, p x = false) : l.dropWhile p = l := by
  induction l with
  | nil => rfl
  | cons a t ih =>
    rw [List.dropWhile_cons, if_neg (by simp [h a (by simp)])]

/-- JS `trim` is the identity on whitespace-free character lists. -/
theorem trimChars_noop {l : List Char} (h : ∀ x ∈ l, isWs x = false) :
    trimChars l = l := by
  unfold trimChars
  rw [dropWhile_all_false h, dropWhile_all_false (by simpa using h),
    List.reverse_reverse]

/-- JS `split` does not split a chunk free of the separator. -/
theorem splitOnPred_all_false {p : Char → Bool} {l : List Char}
    (h : ∀ x ∈ l, p x = false) : splitOnPred p l = [l] := by
  induction l with
  | nil => rfl
  | cons a t ih =>
    unfold splitOnPred
    rw [if_neg (by simp [h a (by simp)]), ih (fun x hx => h x (by simp [hx]))]

/-- JS `includes` is false on a string free of the character. -/
theorem jsIncludes_eq_false {s : String} {c : Char}
    (h : ∀ x ∈ s.data, x ≠ c) : jsIncludes s c = false := by
  unfold jsIncludes
  rw [List.contains_eq_any_beq]
  simp only [List.any_eq_false]
  intro x hx
  simp only [beq_iff_eq]
  exact fun he => h x hx he.symm

/-- The longest digit run of a digit run followed by a non-digit is the
digit run itself. -/
theorem leadingDigits_append {l s : List Char}
    (hl : ∀ c ∈ l, c.isDigit = true) (hs : ∀ c ∈ s.head?, c.isDigit = false) :
    leadingDigits (l ++ s) = l := by
  induction l with
  | nil =>
    cases s with
    | nil => rfl
    | cons c t =>
      have : c.isDigit = false := hs c (by simp)
      simp [leadingDigits, this]
  | cons a t ih =>
    have ha : a.isDigit = true := hl a (by simp)
    show leadingDigits (a :: (t ++ s)) = a :: t
    simp only [leadingDigits, ha, if_true]
    exact congrArg (a :: .) (ih (fun c hc => hl c (by simp [hc])))

/-- JS `parseInt` on a digit run followed by a non-digit, whitespace-free
suffix reads exactly the digit run. -/
theorem jsParseInt_digit_run (ds suffix : String)
    (h1 : ds.data ≠ []) (h2 : ∀ c ∈ ds.data, c.isDigit = true)
    (h3 : ∀ c ∈ suffix.data.head?, c.isDigit = false)
    (h4 : ∀ c ∈ (ds ++ suffix).data, isWs c = false) :
    jsParseInt (ds ++ suffix) = some ((digitsVal ds.data : Int)) := by
  unfold jsParseInt jsTrim
  have hdata : (ds ++ suffix).data = ds.data ++ suffix.data :=
    String.data_append ds suffix
  rw [hdata] at h4 ⊢
  show (match trimChars (ds.data ++ suffix.data) with
    | [] => none
    | c :: cs => _) = _
  rw [trimChars_noop h4]
  rcases hds : ds.data with _ | ⟨c, t⟩
  · exact absurd hds h1
  · have hc : c.isDigit = true := by
      rw [hds] at h2; exact h2 c (by simp)
    have hld : leadingDigits (c :: t ++ suffix.data) = c :: t := by
      rw [← hds]
      rw [hds]
      exact leadingDigits_append (fun x hx => by rw [hds] at h2; exact h2 x hx) h3
    have hminus : (c == '-') = false := by
      simpa using (isDigit_ne_special hc).2.1
    have hplus : (c == '+') = false := by
      simpa using (isDigit_ne_special hc).1
    simp only [List.cons_append, hminus, hplus, Bool.false_eq_true, if_false]
    rw [show (c :: (t ++ suffix.data)) = (c :: t) ++ suffix.data from rfl, hld]

/-- C10 (amended): for every field term consisting of a nonempty digit run
followed by non-digit characters, none of which is a comma, hyphen, slash
or whitespace, validation accepts the term whenever the leading digit run
lies within the field's domain — integer parsing reads only the longest
leading digit prefix and never reports a parse failure for such terms.
In particular `"5x * * * *"` validates. -/
theorem c10_digit_run_leniency :
    (∀ (ds suffix fieldName : String) (lo hi : Nat),
      ds.data ≠ [] → (∀ c ∈ ds.data, c.isDigit = true) →
      (∃ c t, suffix.data = c :: t ∧ c.isDigit = false) →
      (∀ c ∈ (ds ++ suffix).data,
        isWs c = false ∧ c ≠ ',' ∧ c ≠ '-' ∧ c ≠ '/') →
      lo ≤ digitsVal ds.data → digitsVal ds.data ≤ hi →
      validateField (ds ++ suffix) fieldName lo hi = none) ∧
    validateCronExpression "5x * * * *" = none := by
  refine ⟨?_, by decide⟩
  intro ds suffix fieldName lo hi h1 h2 h3 h4 h5 h6
  obtain ⟨c0, t0, hsuf, hc0⟩ := h3
  have hdata : (ds ++ suffix).data = ds.data ++ suffix.data :=
    String.data_append ds suffix
  obtain ⟨c, t, hds⟩ : ∃ c t, ds.data = c :: t := by
    cases hd : ds.data with
    | nil => exact absurd hd h1
    | cons c t => exact ⟨c, t, rfl⟩
  have hcdig : c.isDigit = true := by rw [hds] at h2; exact h2 c (by simp)
  have hne_star : ((ds ++ suffix) == "*") = false := by
    simp only [beq_eq_false_iff_ne, ne_eq]
    intro he
    have : (ds ++ suffix).data = ['*'] := by rw [he]
    rw [hdata, hds] at this
    have : c = '*' := by
      have := congrArg (fun l => l.headD ' ') this
      simpa using this
    exact (isDigit_ne_special hcdig).2.2 this
  have hsplit : jsSplit ',' (ds ++ suffix) = [ds ++ suffix] := by
    unfold jsSplit
    rw [splitOnPred_all_false (fun x hx => by
      simp only [beq_eq_false_iff_ne, ne_eq]; exact (h4 x hx).2.1)]
    rfl
  have hslash : jsIncludes (ds ++ suffix) '/' = false :=
    jsIncludes_eq_false (fun x hx => (h4 x hx).2.2.2)
  have hdash : jsIncludes (ds ++ suffix) '-' = false :=
    jsIncludes_eq_false (fun x hx => (h4 x hx).2.2.1)
  have hparse : jsParseInt (ds ++ suffix) = some ((digitsVal ds.data : Int)) :=
    jsParseInt_digit_run ds suffix h1 h2
      (by rw [hsuf]; intro x hx; simp at hx; exact hx ▸ hc0)
      (fun x hx => (h4 x hx).1)
  have hvp : validatePart (ds ++ suffix) fieldName lo hi = none := by
    unfold validatePart
    simp only [hslash, hdash, hparse, Bool.false_eq_true, if_false]
    rw [if_neg (by
      simp only [Bool.or_eq_true, decide_eq_true_eq, not_or, not_lt]
      exact ⟨by exact_mod_cast h5, by exact_mod_cast h6⟩)]
  unfold validateField
  rw [if_neg (by simp [hne_star]), hsplit]
  unfold validateParts
  rw [hvp]
  rfl

/-- Counterexample to C10 as stated: the term `"5-"` is a digit run whose
value 5 lies in the minute domain, followed by the non-digit `'-'`, yet
validation rejects it (the hyphen routes it to range parsing). -/
theorem c10_counterexample :
    validateCronExpression "5- * * * *" = some "Invalid range in minute" := by
  decide

/-- Witness for C10's amended statement at `ds = "5"`, `suffix = "x"`. -/
theorem c10_witness : validateField ("5" ++ "x") "minute" 0 59 = none :=
  c10_digit_run_leniency.1 "5" "x" "minute" 0 59 (by decide)
    (by decide) ⟨'x', [], rfl, by decide⟩ (by decide) (by decide) (by decide)

/-! ## Claim C3 -/

/-- C3 (amended): for every valid non-alias expression whose hour and
minute fields are single numeric terms (no comma, range, or step), the
description is exactly the zero-padded `"At HH:MM"` — the remaining
day/month/weekday clauses are NOT appended, because the hour branch
returns early before they are rendered. -/
theorem c3_at_hh_mm (e : String) (p : CronFields)
    (hv : validateCronExpression e = none)
    (hp : parseCronExpression e = .ok p)
    (hal : PREDEFINED (jsToLower (jsTrim e)) = none)
    (hh1 : p.hour ≠ "*")
    (hh2 : jsIncludes p.hour ',' = false)
    (hh3 : jsIncludes p.hour '-' = false)
    (hh4 : jsIncludes p.hour '/' = false)
    (hm1 : p.minute ≠ "*")
    (hm2 : jsIncludes p.minute ',' = false)
    (hm3 : jsIncludes p.minute '-' = false)
    (hm4 : jsIncludes p.minute '/' = false) :
    getHumanReadableDescription e = "At " ++ pad2 p.hour ++ ":" ++ pad2 p.minute := by
  have hh1' : (p.hour == "*") = false := beq_eq_false_iff_ne.mpr hh1
  have hm1' : (p.minute == "*") = false := beq_eq_false_iff_ne.mpr hm1
  unfold getHumanReadableDescription
  simp only [hv, hp, hal, hh1', hh2, hh3, hh4, hm1', hm2, hm3, hm4,
    Bool.false_eq_true, if_false, Bool.not_false, Bool.and_self, Bool.and_true,
    Bool.true_and, if_true]

/-- Counterexample to C3 as stated: for `"0 4 1 * *"` the claim predicts
`"At 04:00"` followed by the `"on day 1"` clause, but the code's early
return yields the bare prefix. -/
theorem c3_counterexample :
    getHumanReadableDescription "0 4 1 * *" = "At 04:00" ∧
    ("At 04:00" : String) ≠ "At 04:00, on day 1" := by
  constructor
  · decide
  · decide

/-- Witness for C3's amended statement at `"0 4 1 * *"`. -/
theorem c3_witness :
    getHumanReadableDescription "0 4 1 * *" = "At " ++ pad2 "4" ++ ":" ++ pad2 "0" :=
  c3_at_hh_mm "0 4 1 * *" ⟨"0", "4", "1", "*", "*"⟩ (by decide) (by decide)
    (by decide) (by decide) (by decide) (by decide) (by decide) (by decide)
    (by decide) (by decide) (by decide)

/-! ## Claim C6 -/

/-- JS `getDay()` always returns a value below 7. -/
theorem dayOfWeek_lt (y m d : Nat) : dayOfWeek y m d < 7 := by
  dsimp only [dayOfWeek]
  exact Nat.mod_lt _ (by norm_num)

/-- On actual weekday numbers, the fields `"0"` and `"7"` match the same
days. -/
theorem checkWeekday_01_eq : ∀ wd, wd < 7 →
    checkWeekdayMatch wd "0" = checkWeekdayMatch wd "7" := by decide

/-- On actual weekday numbers, the field `"0"` matches only Sunday. -/
theorem checkWeekday_0_sunday : ∀ wd, wd < 7 →
    checkWeekdayMatch wd "0" = true → wd = 0 := by decide

/-- With day `"*"` and weekday `"0"`/`"7"`, the search day rule is exactly
the weekday check, and it agrees between the two spellings of Sunday. -/
theorem dayMatches_sun_eq (dom wd : Nat) (hwd : wd < 7) :
    dayMatches ⟨"*", "*", "*", "*", "0"⟩ dom wd =
    dayMatches ⟨"*", "*", "*", "*", "7"⟩ dom wd := by
  show checkWeekdayMatch wd "0" = checkWeekdayMatch wd "7"
  exact checkWeekday_01_eq wd hwd

/-- The searches for `"* * * * 0"` and `"* * * * 7"` take identical steps. -/
theorem searchLoop_sun_eq (f : Instant) (sy : Nat) : ∀ fuel cur,
    searchLoop ⟨"*", "*", "*", "*", "0"⟩ f sy fuel cur =
    searchLoop ⟨"*", "*", "*", "*", "7"⟩ f sy fuel cur := by
  intro fuel
  induction fuel with
  | zero => intro cur; rfl
  | succ n ih =>
    intro cur
    simp only [searchLoop]
    rw [dayMatches_sun_eq cur.day (dayOfWeek cur.year cur.month cur.day)
      (dayOfWeek_lt cur.year cur.month cur.day)]
    split_ifs <;> first | rfl | exact ih _

/-- A hit of the `"* * * * 0"` search is a real-world Sunday. -/
theorem searchLoop_sun_sunday (f : Instant) (sy : Nat) : ∀ fuel cur r,
    searchLoop ⟨"*", "*", "*", "*", "0"⟩ f sy fuel cur = some r →
    dayOfWeek r.year r.month r.day = 0 := by
  intro fuel
  induction fuel with
  | zero => intro cur r h; simp [searchLoop] at h
  | succ n ih =>
    intro cur r h
    simp only [searchLoop, matchesField, beq_self_eq_true, if_true,
      Bool.not_true, Bool.false_eq_true, if_false] at h
    split at h
    · exact absurd h (by simp)
    · split at h
      · exact ih _ _ h
      · rename_i hyear hday
        split at h
        · obtain rfl : cur = r := Option.some_inj.mp h
          have hdm : dayMatches ⟨"*", "*", "*", "*", "0"⟩ cur.day
              (dayOfWeek cur.year cur.month cur.day) = true := by
            rcases hb : dayMatches ⟨"*", "*", "*", "*", "0"⟩ cur.day
                (dayOfWeek cur.year cur.month cur.day) with _ | _
            · exact absurd (by rw [hb]; rfl) hday
            · rfl
          exact checkWeekday_0_sunday _ (dayOfWeek_lt _ _ _) hdm
        · exact ih _ _ h

/-- C6: weekday values 0 and 7 are interchangeable aliases for Sunday:
both `"* * * * 0"` and `"* * * * 7"` validate, the searches return the
same instant for every reference instant, and every returned instant is a
real-world Sunday. -/
theorem c6_sunday_alias :
    validateCronExpression "* * * * 0" = none ∧
    validateCronExpression "* * * * 7" = none ∧
    (∀ t : Instant,
      getNextExecutionTime "* * * * 0" t = getNextExecutionTime "* * * * 7" t) ∧
    (∀ t r, getNextExecutionTime "* * * * 0" t = some r →
      dayOfWeek r.year r.month r.day = 0) := by
  refine ⟨by decide, by decide, ?_, ?_⟩
  · intro t
    show searchLoop ⟨"*", "*", "*", "*", "0"⟩ t (dtNextMinute t.dt).year 2000000
        (dtNextMinute t.dt) =
      searchLoop ⟨"*", "*", "*", "*", "7"⟩ t (dtNextMinute t.dt).year 2000000
        (dtNextMinute t.dt)
    exact searchLoop_sun_eq t _ _ _
  · intro t r h
    have h' : searchLoop ⟨"*", "*", "*", "*", "0"⟩ t (dtNextMinute t.dt).year
        2000000 (dtNextMinute t.dt) = some r := h
    exact searchLoop_sun_sunday t _ _ _ r h'

/-- Witness for C6 from Monday 2024-01-15: both spellings fire on Sunday
2024-01-21, a real Sunday. -/
theorem c6_witness :
    getNextExecutionTime "* * * * 0" ⟨⟨2024, 1, 15, 10, 0⟩, 0⟩ =
      getNextExecutionTime "* * * * 7" ⟨⟨2024, 1, 15, 10, 0⟩, 0⟩ ∧
    dayOfWeek 2024 1 21 = 0 :=
  ⟨c6_sunday_alias.2.2.1 ⟨⟨2024, 1, 15, 10, 0⟩, 0⟩,
   c6_sunday_alias.2.2.2 ⟨⟨2024, 1, 15, 10, 0⟩, 0⟩ ⟨2024, 1, 21, 0, 0⟩ (by decide)⟩

/-! ## Claim C7 -/

theorem genShape0_valid : ∀ a, a < 60 → ∀ b, b < 24 →
    (fieldTokens (generateRandomCron 0 a b)).length = 5 ∧
    validateCronExpression (generateRandomCron 0 a b) = none := by decide

theorem genShape1_valid : ∀ a, a < 4 →
    (fieldTokens (generateRandomCron 1 a 0)).length = 5 ∧
    validateCronExpression (generateRandomCron 1 a 0) = none := by decide

theorem genShape2_valid : ∀ a, a < 5 →
    (fieldTokens (generateRandomCron 2 a 0)).length = 5 ∧
    validateCronExpression (generateRandomCron 2 a 0) = none := by decide

theorem genShape4_valid : ∀ a, a < 7 → ∀ b, b < 24 →
    (fieldTokens (generateRandomCron 4 a b)).length = 5 ∧
    validateCronExpression (generateRandomCron 4 a b) = none := by decide

theorem genShape5_valid : ∀ a, a < 28 → ∀ b, b < 24 →
    (fieldTokens (generateRandomCron 5 a b)).length = 5 ∧
    validateCronExpression (generateRandomCron 5 a b) = none := by decide

theorem genShape6_valid : ∀ a, a < 20 → ∀ b, b < 24 - a →
    (fieldTokens (generateRandomCron 6 a b)).length = 5 ∧
    validateCronExpression (generateRandomCron 6 a b) = none := by decide

/-- C7: for every shape `generateRandomCron` can pick and every choice of
its random parameters, the output splits into exactly 5
whitespace-separated fields and validates. -/
theorem c7_random_roundtrip : ∀ pick a b : Nat,
    (((pick = 0 ∨ pick = 3) ∧ a < 60 ∧ b < 24) ∨
     (pick = 1 ∧ a < 4) ∨ (pick = 2 ∧ a < 5) ∨
     (pick = 4 ∧ a < 7 ∧ b < 24) ∨ (pick = 5 ∧ a < 28 ∧ b < 24) ∨
     (pick = 6 ∧ a < 20 ∧ b < 24 - a)) →
    (fieldTokens (generateRandomCron pick a b)).length = 5 ∧
    validateCronExpression (generateRandomCron pick a b) = none := by
  intro pick a b h
  rcases h with ⟨h03, ha, hb⟩ | ⟨rfl, ha⟩ | ⟨rfl, ha⟩ | ⟨rfl, ha, hb⟩ |
    ⟨rfl, ha, hb⟩ | ⟨rfl, ha, hb⟩
  · rcases h03 with rfl | rfl
    · exact genShape0_valid a ha b hb
    · exact genShape0_valid a ha b hb
  · exact genShape1_valid a ha
  · exact genShape2_valid a ha
  · exact genShape4_valid a ha b hb
  · exact genShape5_valid a ha b hb
  · exact genShape6_valid a ha b hb

/-- Witness for C7 at shape 0 with minute 30, hour 12. -/
theorem c7_witness :
    (fieldTokens (generateRandomCron 0 30 12)).length = 5 ∧
    validateCronExpression (generateRandomCron 0 30 12) = none :=
  c7_random_roundtrip 0 30 12 (Or.inl ⟨Or.inl rfl, by decide, by decide⟩)

end Cron
